import Mathlib

/-!
# wxMaxima: the worksheet cell (`src/Cell.h`)

A shallow embedding of the base class `Cell` of the worksheet model and of the
per-worksheet pointer storage `Cell::CellPointers`.

* A C++ `int` field is an `Int`. The only arithmetic on such fields below is the
  subtraction in `GetDrop` and the subtraction of coordinates in `GetRect` and in
  the rectangle tests, taken without wrap-around; `wrapInt32` gives the value a
  32-bit two's complement register would hold.
* A `wxString` is a `String`, a `wxPoint` a pair of `Int`s.
* Cells live in an arena (`Heap`): the address of a cell is its index. A raw
  pointer or a `CellPtr<T>` is an `Option CellId`; `none` is the null pointer.
* Fields whose types are declared outside `Cell.h` (`m_textStyle`,
  `m_fontSize`, `m_fontsize_old`, `m_configuration`, `m_cellPointers`) and the
  floating-point field `m_lastZoomFactor` are not read or written by any
  operation embedded here and are left out of the record.
-/

set_option autoImplicit false

namespace WxMaxima

/-! ## Data model -/

/-- The supported types of math cells (`enum CellType`). -/
inductive CellType
  | MC_TYPE_DEFAULT
  | MC_TYPE_MAIN_PROMPT
  | MC_TYPE_PROMPT
  | MC_TYPE_LABEL
  | MC_TYPE_INPUT
  | MC_TYPE_WARNING
  | MC_TYPE_ERROR
  | MC_TYPE_TEXT
  | MC_TYPE_SUBSECTION
  | MC_TYPE_SUBSUBSECTION
  | MC_TYPE_HEADING5
  | MC_TYPE_HEADING6
  | MC_TYPE_SECTION
  | MC_TYPE_TITLE
  | MC_TYPE_IMAGE
  | MC_TYPE_SLIDE
  | MC_TYPE_GROUP
  deriving DecidableEq, Repr

/-- A point of the worksheet (`wxPoint`). -/
structure wxPoint where
  x : Int
  y : Int
  deriving DecidableEq, Repr

/-- A rectangle of the worksheet (`wxRect`): top left corner and size. -/
structure wxRect where
  x : Int
  y : Int
  width : Int
  height : Int
  deriving DecidableEq, Repr

/-- The address of a cell: its index in the arena. -/
abbrev CellId := Nat

/-- The data members of `class Cell`, with the names of `Cell.h`. -/
structure Cell where
  m_toolTip : String
  m_altCopyText : String
  m_currentPoint : wxPoint
  m_currentPoint_Last : wxPoint
  m_next : Option CellId
  m_previous : Option CellId
  m_group : Option CellId
  m_imageBorderWidth : Int
  m_height : Int
  m_width : Int
  m_fullWidth : Int
  m_lineWidth : Int
  m_center : Int
  m_maxCenter : Int
  m_maxDrop : Int
  m_clientWidth_old : Int
  m_type : CellType
  m_bigSkip : Bool
  m_isBrokenIntoLines : Bool
  m_isBrokenIntoLines_old : Bool
  m_isHidden : Bool
  m_isHidableMultSign : Bool
  m_suppressMultiplicationDot : Bool
  m_recalculateWidths : Bool
  m_recalculate_maxCenter : Bool
  m_recalculate_maxDrop : Bool
  m_recalculate_maxWidth : Bool
  m_recalculate_lineWidth : Bool
  m_suppressTooltipMarker : Bool
  m_containsToolTip : Bool
  m_breakPage : Bool
  m_breakLine : Bool
  m_forceBreakLine : Bool
  m_highlight : Bool
  deriving DecidableEq, Repr

/-- The arena of cells; a cell's address is its position. -/
abbrev Heap := List Cell

/-- Modelled from the spec: the constructor `Cell(GroupCell *group, Configuration **config)`
is declared in `Cell.h` but its body is not part of the sources. The constructed
state is the one given by the default member initialisers of `Cell.h`, with the
group back-reference set to the constructor argument. -/
def Cell.new (group : Option CellId) : Cell :=
  { m_toolTip := ""
    m_altCopyText := ""
    m_currentPoint := ⟨-1, -1⟩
    m_currentPoint_Last := ⟨-1, -1⟩
    m_next := none
    m_previous := none
    m_group := group
    m_imageBorderWidth := 0
    m_height := -1
    m_width := -1
    m_fullWidth := -1
    m_lineWidth := -1
    m_center := -1
    m_maxCenter := -1
    m_maxDrop := -1
    m_clientWidth_old := -1
    m_type := CellType.MC_TYPE_DEFAULT
    m_bigSkip := false
    m_isBrokenIntoLines := false
    m_isBrokenIntoLines_old := false
    m_isHidden := false
    m_isHidableMultSign := false
    m_suppressMultiplicationDot := false
    m_recalculateWidths := true
    m_recalculate_maxCenter := true
    m_recalculate_maxDrop := true
    m_recalculate_maxWidth := true
    m_recalculate_lineWidth := true
    m_suppressTooltipMarker := false
    m_containsToolTip := false
    m_breakPage := false
    m_breakLine := false
    m_forceBreakLine := false
    m_highlight := false }

/-! ## Operations whose bodies are in `Cell.h` -/

/-- The method `bool SoftLineBreak(bool breakLine = true)`: the new state and the result. -/
def Cell.SoftLineBreak (c : Cell) (breakLine : Bool) : Cell × Bool :=
  let result := (c.m_breakLine == breakLine)
  ({ c with m_breakLine := breakLine }, result)

/-- The method `bool LineBreakAtBeginning() const`. -/
def Cell.LineBreakAtBeginning (c : Cell) : Bool :=
  c.m_breakLine || c.m_breakPage || c.m_forceBreakLine

/-- The method `void BreakPage(bool breakPage)`. -/
def Cell.BreakPage (c : Cell) (breakPage : Bool) : Cell :=
  { c with m_breakPage := breakPage }

/-- The method `bool BreakLineHere() const`. -/
def Cell.BreakLineHere (c : Cell) : Bool :=
  c.m_breakLine || c.m_forceBreakLine

/-- The method `bool HardLineBreak() const`. -/
def Cell.HardLineBreak (c : Cell) : Bool :=
  c.m_forceBreakLine

/-- The method `bool BreakPageHere() const`. -/
def Cell.BreakPageHere (c : Cell) : Bool :=
  c.m_breakPage

/-- The method `void ForceBreakLine(bool force = true)`:
`m_forceBreakLine = m_breakLine = force`. -/
def Cell.ForceBreakLine (c : Cell) (force : Bool) : Cell :=
  { c with m_breakLine := force, m_forceBreakLine := force }

/-- The method `int GetHeight() const`. -/
def Cell.GetHeight (c : Cell) : Int := c.m_height

/-- The method `int GetWidth() const`. -/
def Cell.GetWidth (c : Cell) : Int := c.m_width

/-- The method `int GetCenter() const`. -/
def Cell.GetCenter (c : Cell) : Int := c.m_center

/-- The method `int GetDrop() const`: `m_height - m_center`. -/
def Cell.GetDrop (c : Cell) : Int := c.m_height - c.m_center

/-- The value of the integer `z` in a 32-bit two's complement `int`. -/
def wrapInt32 (z : Int) : Int := (z + 2147483648) % 4294967296 - 2147483648

/-- The method `CellType GetType() const`. -/
def Cell.GetType (c : Cell) : CellType := c.m_type

/-- The method `void ResetSize()`. -/
def Cell.ResetSize (c : Cell) : Cell :=
  { c with
    m_recalculateWidths := true
    m_recalculate_maxCenter := true
    m_recalculate_maxDrop := true
    m_recalculate_maxWidth := true
    m_recalculate_lineWidth := true }

/-- The method `void ResetCellListSizes()`. -/
def Cell.ResetCellListSizes (c : Cell) : Cell :=
  { c with
    m_recalculate_maxCenter := true
    m_recalculate_maxDrop := true
    m_recalculate_maxWidth := true
    m_recalculate_lineWidth := true }

/-- The method `void SetSkip(bool skip)`. -/
def Cell.SetSkip (c : Cell) (skip : Bool) : Cell :=
  { c with m_bigSkip := skip }

/-- The method `void SetHighlight(bool highlight)`. -/
def Cell.SetHighlight (c : Cell) (highlight : Bool) : Cell :=
  { c with m_highlight := highlight }

/-- The method `bool GetHighlight() const`. -/
def Cell.GetHighlight (c : Cell) : Bool := c.m_highlight

/-- The method `bool IsComment() const`. -/
def Cell.IsComment (c : Cell) : Bool :=
  c.m_type == CellType.MC_TYPE_TEXT || c.m_type == CellType.MC_TYPE_SECTION ||
  c.m_type == CellType.MC_TYPE_SUBSECTION || c.m_type == CellType.MC_TYPE_SUBSUBSECTION ||
  c.m_type == CellType.MC_TYPE_HEADING5 || c.m_type == CellType.MC_TYPE_HEADING6 ||
  c.m_type == CellType.MC_TYPE_TITLE

/-- The method `bool IsHidden() const`. -/
def Cell.IsHidden (c : Cell) : Bool := c.m_isHidden

/-- The base-class body of the virtual method `void Hide(bool hide = true)`. -/
def Cell.Hide (c : Cell) (hide : Bool) : Cell :=
  { c with m_isHidden := hide }

/-- Resolving a cell pointer in the arena: the null pointer and a pointer to a
cell that is not (or no longer) in the arena both give `none`. -/
def Heap.deref (h : Heap) (p : Option CellId) : Option Cell :=
  p.bind (fun i => h[i]?)

/-- The method `bool IsEditable(bool input = false) const`. The weak pointer
`m_previous` is resolved in the arena `h`; it converts to `true` when it resolves
to a cell, whose `m_type` is then read. -/
def Cell.IsEditable (h : Heap) (c : Cell) (input : Bool) : Bool :=
  (c.m_type == CellType.MC_TYPE_INPUT &&
    (match h.deref c.m_previous with
     | some p => p.m_type == CellType.MC_TYPE_MAIN_PROMPT
     | none => false))
  || (!input && c.IsComment)

/-- The method `void SetAltCopyText(wxString text)`. -/
def Cell.SetAltCopyText (c : Cell) (text : String) : Cell :=
  { c with m_altCopyText := text }

/-- The method `void ClearToolTip()`: `m_toolTip.Truncate(0)`. -/
def Cell.ClearToolTip (c : Cell) : Cell :=
  { c with m_toolTip := "" }

/-- The method `void SetCurrentPoint(wxPoint point)`. -/
def Cell.SetCurrentPoint (c : Cell) (point : wxPoint) : Cell :=
  let c1 := { c with m_currentPoint := point }
  if c1.m_currentPoint.x ≥ 0 ∧ c1.m_currentPoint.y ≥ 0 then
    { c1 with m_currentPoint_Last := point }
  else c1

/-- The method `wxPoint GetCurrentPoint() const`. -/
def Cell.GetCurrentPoint (c : Cell) : wxPoint := c.m_currentPoint

/-- The method `bool IsBrokenIntoLines() const`. -/
def Cell.IsBrokenIntoLines (c : Cell) : Bool := c.m_isBrokenIntoLines

/-- The method `bool GetSuppressMultiplicationDot() const`. -/
def Cell.GetSuppressMultiplicationDot (c : Cell) : Bool := c.m_suppressMultiplicationDot

/-- The method `void SetSuppressMultiplicationDot(bool val)`. -/
def Cell.SetSuppressMultiplicationDot (c : Cell) (val : Bool) : Cell :=
  { c with m_suppressMultiplicationDot := val }

/-- The method `void SetHidableMultSign(bool val)`. -/
def Cell.SetHidableMultSign (c : Cell) (val : Bool) : Cell :=
  { c with m_isHidableMultSign := val }

/-- One call of a state-changing method of `Cell` whose body is in `Cell.h`,
with its arguments. -/
inductive CellOp
  | ResetSize
  | ResetCellListSizes
  | SoftLineBreak (breakLine : Bool)
  | ForceBreakLine (force : Bool)
  | BreakPage (breakPage : Bool)
  | Hide (hide : Bool)
  | SetHighlight (highlight : Bool)
  | SetSkip (skip : Bool)
  | SetCurrentPoint (point : wxPoint)
  | SetAltCopyText (text : String)
  | ClearToolTip
  | SetSuppressMultiplicationDot (val : Bool)
  | SetHidableMultSign (val : Bool)
  deriving DecidableEq, Repr

/-- The state of the cell after the call `op`. -/
def CellOp.run (op : CellOp) (c : Cell) : Cell :=
  match op with
  | .ResetSize => c.ResetSize
  | .ResetCellListSizes => c.ResetCellListSizes
  | .SoftLineBreak b => (c.SoftLineBreak b).1
  | .ForceBreakLine b => c.ForceBreakLine b
  | .BreakPage b => c.BreakPage b
  | .Hide b => c.Hide b
  | .SetHighlight b => c.SetHighlight b
  | .SetSkip b => c.SetSkip b
  | .SetCurrentPoint p => c.SetCurrentPoint p
  | .SetAltCopyText t => c.SetAltCopyText t
  | .ClearToolTip => c.ClearToolTip
  | .SetSuppressMultiplicationDot b => c.SetSuppressMultiplicationDot b
  | .SetHidableMultSign b => c.SetHidableMultSign b

/-! ## The logical chain: `first`, `last`, `AppendCell`

These three methods are declared in `Cell.h`; their bodies are not part of the
sources. -/

/-- Modelled from the spec: the body of `Cell::last()` is missing. It is the
chain-boundary lookup that walks `m_next` from the cell `c` until a cell without
successor is found. Every visited cell costs one unit of `fuel`; `none` means
that the fuel ran out or that a pointer left the arena. -/
def Cell.lastAux (h : Heap) : Nat → CellId → Option CellId
  | 0, _ => none
  | fuel + 1, c =>
    match h[c]? with
    | none => none
    | some cell =>
      match cell.m_next with
      | some n => Cell.lastAux h fuel n
      | none => some c

/-- Modelled from the spec: `Cell::last()`, see `Cell.lastAux`. A chain without
cycle visits every cell of the arena at most once, so the size of the arena is
enough fuel. -/
def Cell.last (h : Heap) (c : CellId) : Option CellId :=
  Cell.lastAux h h.length c

/-- Modelled from the spec: the body of `Cell::first()` is missing. It is the
chain-boundary lookup that walks `m_previous` from the cell `c` until a cell
without predecessor is found. `m_previous` is a weak pointer: when it does not
resolve to a cell of the arena it reads as null. -/
def Cell.firstAux (h : Heap) : Nat → CellId → Option CellId
  | 0, _ => none
  | fuel + 1, c =>
    match h[c]? with
    | none => none
    | some cell =>
      match cell.m_previous, h.deref cell.m_previous with
      | some p, some _ => Cell.firstAux h fuel p
      | _, _ => some c

/-- Modelled from the spec: `Cell::first()`, see `Cell.firstAux`. -/
def Cell.first (h : Heap) (c : CellId) : Option CellId :=
  Cell.firstAux h h.length c

/-- Overwrite the cell at address `i` by its image under `f`. -/
def Heap.modifyCell (h : Heap) (i : CellId) (f : Cell → Cell) : Heap :=
  match h[i]? with
  | some c => h.set i (f c)
  | none => h

/-- Modelled from the spec: the body of `Cell::AppendCell(Cell *p_next)` is
missing. It attaches `other` as the logical successor of the current tail of the
chain of `self`, and sets the back-reference of `other` to that tail. It fails
(`none`) when the tail cannot be found, when `other` is not a cell, or when
`other` is already attached behind another cell. -/
def Cell.AppendCell (h : Heap) (self other : CellId) : Option Heap :=
  match Cell.last h self, h[other]? with
  | some tail, some o =>
    if (h.deref o.m_previous).isSome then none
    else
      some ((h.modifyCell tail (fun c => { c with m_next := some other })).modifyCell other
        (fun c => { c with m_previous := some tail }))
  | _, _ => none

/-- The arenas that hold exactly one chain, built from a single unlinked cell by
repeated `AppendCell` calls: each call is issued on some cell `x` of the chain
and appends a newly allocated, unlinked cell `c`. -/
inductive BuiltChain : Heap → Prop
  | single (c : Cell) (hn : c.m_next = none) (hp : c.m_previous = none) : BuiltChain [c]
  | append (h h2 : Heap) (x : CellId) (c : Cell) (hb : BuiltChain h) (hx : x < h.length)
      (hn : c.m_next = none) (hp : c.m_previous = none)
      (happ : Cell.AppendCell (h ++ [c]) x h.length = some h2) : BuiltChain h2

/-- The links of a chain that occupies the first `n` addresses of the arena in
order. -/
def LinkedUpTo (h : Heap) (n : Nat) : Prop :=
  0 < n ∧ n ≤ h.length ∧
  ∀ i c, i < n → h[i]? = some c →
    c.m_next = (if i + 1 < n then some (i + 1) else none) ∧
    c.m_previous = (if i = 0 then none else some (i - 1))

/-! ## Weak references and `CellPointers`

`CellPtr.h` and the destructor of `Cell` are not part of the sources. -/

/-- Modelled from the spec: the weak-reference registry of `CellPtr.h` is missing.
The registry of a document is the table of the identities of its live cells.
Identities are arena addresses, which are never handed out twice. A weak handle
(`CellPtr<T>`) is an `Option CellId`: the identity it was taken for, or empty. -/
structure Registry where
  live : List CellId
  deriving DecidableEq, Repr

/-- Modelled from the spec: `Register(cell) -> handle`. -/
def Registry.Register (r : Registry) (cell : CellId) : Registry × Option CellId :=
  (⟨cell :: r.live⟩, some cell)

/-- Modelled from the spec: `Resolve(handle) -> cell|empty`: the live cell, or
empty if the handle is empty or its cell has been destroyed. -/
def Registry.Resolve (r : Registry) (handle : Option CellId) : Option CellId :=
  handle.filter (fun k => decide (k ∈ r.live))

/-- Modelled from the spec: `Invalidate(cell)`, called during the destruction
of `cell`: the identity leaves the table of live cells. -/
def Registry.Invalidate (r : Registry) (cell : CellId) : Registry :=
  ⟨r.live.filter (fun k => decide (k ≠ cell))⟩

/-- The weak handles of `class Cell::CellPointers`, with the names of `Cell.h`,
together with its plain data members. The map `m_slideShowTimers`, keyed by raw
pointers, and the canvas pointer `m_worksheet` are not weak handles and are left
out. -/
structure CellPointers where
  m_errorList : List (Option CellId)
  m_cellMouseSelectionStartedIn : Option CellId
  m_cellKeyboardSelectionStartedIn : Option CellId
  m_cellSearchStartedIn : Option CellId
  m_indexSearchStartedAt : Int
  m_activeCell : Option CellId
  m_groupCellUnderPointer : Option CellId
  m_answerCell : Option CellId
  m_lastWorkingGroup : Option CellId
  m_currentTextCell : Option CellId
  m_workingGroup : Option CellId
  m_selectionString : String
  m_selectionStart : Option CellId
  m_cellUnderPointer : Option CellId
  m_selectionEnd : Option CellId
  m_scrollToCell : Bool
  m_cellToScrollTo : Option CellId
  m_wxmxImgCounter : Int
  deriving DecidableEq, Repr

/-- All the weak handles held by a `CellPointers`. -/
def CellPointers.handles (p : CellPointers) : List (Option CellId) :=
  [ p.m_cellMouseSelectionStartedIn, p.m_cellKeyboardSelectionStartedIn,
    p.m_cellSearchStartedIn, p.m_activeCell, p.m_groupCellUnderPointer, p.m_answerCell,
    p.m_lastWorkingGroup, p.m_currentTextCell, p.m_workingGroup, p.m_selectionStart,
    p.m_cellUnderPointer, p.m_selectionEnd, p.m_cellToScrollTo ] ++ p.m_errorList

/-- The part of a document that weak references depend on: the registry and the
per-worksheet pointer storage. -/
structure Document where
  registry : Registry
  pointers : CellPointers
  deriving DecidableEq, Repr

/-- Modelled from the spec: the destructor `~Cell()` is missing. Destroying the
cell `c` invalidates it in the registry of its document; the handles themselves
are not written to. -/
def Document.destroyCell (d : Document) (c : CellId) : Document :=
  { d with registry := d.registry.Invalidate c }

/-- Modelled from the spec: the body of `CellPointers::SetWorkingGroup(GroupCell *group)`
is missing. It sets the cell maxima currently works on (null if there is none);
`m_lastWorkingGroup` keeps the last group maxima was working on, so it follows
only the non-null arguments. -/
def CellPointers.SetWorkingGroup (p : CellPointers) (group : Option CellId) : CellPointers :=
  let p1 := if group.isSome then { p with m_lastWorkingGroup := group } else p
  { p1 with m_workingGroup := group }

/-- Modelled from the spec: the body of `CellPointers::GetWorkingGroup(bool resortToLast)`
is missing. It returns the cell maxima currently works on, null if there is no
such cell; with `resortToLast`, when the working cell has been set to null, the
last cell maxima was known to work on. Both handles are weak and are resolved in
the registry `r`. -/
def CellPointers.GetWorkingGroup (r : Registry) (p : CellPointers) (resortToLast : Bool) :
    Option CellId :=
  if (r.Resolve p.m_workingGroup).isSome || !resortToLast then r.Resolve p.m_workingGroup
  else r.Resolve p.m_lastWorkingGroup

/-- The method `bool CellPointers::HasCellsSelected() const`. -/
def CellPointers.HasCellsSelected (r : Registry) (p : CellPointers) : Bool :=
  (r.Resolve p.m_selectionStart).isSome && (r.Resolve p.m_selectionEnd).isSome

/-- Modelled from the spec: the body of `Cell::GetGroup()` is missing. It returns
the owning GroupCell, and signals the error of an ungrouped cell when the weak
back-reference `m_group` is null. -/
def Cell.GetGroup (r : Registry) (c : Cell) : Except String CellId :=
  match r.Resolve c.m_group with
  | some g => Except.ok g
  | none => Except.error "ungrouped cell"

/-! ## Selection by rectangle

`GetRect`, `SelectFirst`, `SelectLast` and `SelectRect` are declared in `Cell.h`;
their bodies are not part of the sources. -/

/-- The wxWidgets method `wxRect::GetRight()`. -/
def wxRect.GetRight (r : wxRect) : Int := r.x + r.width - 1

/-- The wxWidgets method `wxRect::GetBottom()`. -/
def wxRect.GetBottom (r : wxRect) : Int := r.y + r.height - 1

/-- The wxWidgets method `wxRect::Intersect`: the common part of two rectangles,
of size zero when they have no point in common. -/
def wxRect.Intersect (a b : wxRect) : wxRect :=
  let x := if a.x < b.x then b.x else a.x
  let y := if a.y < b.y then b.y else a.y
  let x2 := if a.GetRight > b.GetRight then b.GetRight else a.GetRight
  let y2 := if a.GetBottom > b.GetBottom then b.GetBottom else a.GetBottom
  let width := x2 - x + 1
  let height := y2 - y + 1
  if width ≤ 0 ∨ height ≤ 0 then ⟨x, y, 0, 0⟩ else ⟨x, y, width, height⟩

/-- The wxWidgets method `wxRect::Intersects`. -/
def wxRect.Intersects (a b : wxRect) : Bool :=
  (a.Intersect b).width != 0

/-- The wxWidgets method `wxRect::Contains(const wxPoint&)`. -/
def wxRect.Contains (r : wxRect) (p : wxPoint) : Bool :=
  decide (p.x ≥ r.x) && decide (p.y ≥ r.y) && decide (p.y - r.y < r.height) &&
    decide (p.x - r.x < r.width)

/-- The wxWidgets method `wxRect::Contains(const wxRect&)`: the top left and the
bottom right corner of `b` are inside `a`. -/
def wxRect.ContainsRect (a b : wxRect) : Bool :=
  a.Contains ⟨b.x, b.y⟩ && a.Contains ⟨b.GetRight, b.GetBottom⟩

/-- Modelled from the spec: the body of `Cell::GetRect(false)` is missing. It is
the bounding rectangle produced by the layout: `m_currentPoint` holds the left
border and the vertical center of the cell, so the top is `m_center` above it. -/
def Cell.GetRect (c : Cell) : wxRect :=
  ⟨c.m_currentPoint.x, c.m_currentPoint.y - c.m_center, c.m_width, c.m_height⟩

/-- Modelled from the spec: the body of the virtual method
`wxRect GetRect(bool all = false)` is missing. With `all = false` it is the
rectangle of this cell only (`Cell.GetRect`); with `all = true` it is the rectangle
of this cell and the ones that follow it in the list, which is computed from the
list-level caches and is given here as `listRect`. -/
def Cell.GetRectOf (c : Cell) (listRect : wxRect) (all : Bool) : wxRect :=
  if all then listRect else c.GetRect

/-- The method `bool ContainsPoint(wxPoint point)`: `GetRect().Contains(point)`.
The virtual method `GetRect`, whose body is missing, is the parameter `getRect`;
the call uses its default argument `all = false`. -/
def Cell.ContainsPoint (getRect : Bool → wxRect) (point : wxPoint) : Bool :=
  (getRect false).Contains point

/-- Modelled from the spec: the body of `Cell::SelectFirst` is missing. It walks
the display chain, given as the list of its cells from this cell on (this cell is
at position `i`), and returns the position of the earliest cell whose bounding
rectangle intersects `rect`. -/
def Cell.SelectFirst (rect : wxRect) : List Cell → Nat → Option Nat
  | [], _ => none
  | c :: rest, i =>
    if rect.Intersects c.GetRect then some i else Cell.SelectFirst rect rest (i + 1)

/-- Modelled from the spec: the body of `Cell::SelectLast` is missing. It walks
the display chain from this cell (at position `i`) to its end and returns the
position of the latest cell whose bounding rectangle intersects `rect`, or `last`
if there is none. -/
def Cell.SelectLast (rect : wxRect) : List Cell → Nat → Option Nat → Option Nat
  | [], _, last => last
  | c :: rest, i, last =>
    Cell.SelectLast rect rest (i + 1) (if rect.Intersects c.GetRect then some i else last)

/-- Modelled from the spec: the body of `Cell::SelectRect` is missing. It returns
the first and the last cell, in display order, whose bounding rectangle
intersects `rect`; both are null when no cell does. -/
def Cell.SelectRect (rect : wxRect) (chain : List Cell) : Option Nat × Option Nat :=
  (Cell.SelectFirst rect chain 0, Cell.SelectLast rect chain 0 none)

/-! ## Concrete states used as examples -/

/-- A text cell without neighbours. -/
def exampleTextCell : Cell := { Cell.new none with m_type := CellType.MC_TYPE_TEXT }

/-- A cell with stale geometry and a pending width recalculation only. -/
def exampleMeasuredCell : Cell :=
  { Cell.new (some 0) with
    m_width := 40, m_height := 12, m_center := 6
    m_recalculate_maxCenter := false, m_recalculate_maxDrop := false
    m_recalculate_maxWidth := false, m_recalculate_lineWidth := false }

/-- An input cell with a soft line break, placed behind the cell at address 0. -/
def exampleInputCell : Cell :=
  { Cell.new (some 0) with
    m_type := CellType.MC_TYPE_INPUT, m_previous := some 0, m_breakLine := true }

/-- An arena whose cell at address 0 is a main prompt. -/
def examplePromptHeap : Heap :=
  [{ Cell.new (some 0) with m_type := CellType.MC_TYPE_MAIN_PROMPT, m_next := some 1 },
   exampleInputCell]

/-- A pointer storage in which no handle is set. -/
def CellPointers.empty : CellPointers :=
  { m_errorList := []
    m_cellMouseSelectionStartedIn := none
    m_cellKeyboardSelectionStartedIn := none
    m_cellSearchStartedIn := none
    m_indexSearchStartedAt := -1
    m_activeCell := none
    m_groupCellUnderPointer := none
    m_answerCell := none
    m_lastWorkingGroup := none
    m_currentTextCell := none
    m_workingGroup := none
    m_selectionString := ""
    m_selectionStart := none
    m_cellUnderPointer := none
    m_selectionEnd := none
    m_scrollToCell := false
    m_cellToScrollTo := none
    m_wxmxImgCounter := 0 }

/-- A document with the live cells 1, 2 and 3, where maxima works on the group 2
and the cells 2 to 3 are selected. -/
def exampleDocument : Document :=
  { registry := ⟨[1, 2, 3]⟩
    pointers :=
      { CellPointers.empty with
        m_workingGroup := some 2, m_lastWorkingGroup := some 2
        m_selectionStart := some 2, m_selectionEnd := some 3, m_cellUnderPointer := some 3 } }

/-- The chain of three cells built by two `AppendCell` calls on a new cell. -/
def exampleChain : Heap :=
  [ { Cell.new none with m_next := some 1 },
    { Cell.new none with m_next := some 2, m_previous := some 0 },
    { Cell.new none with m_previous := some 1 } ]

/-- A laid-out cell of the size `w` by `h` whose top left corner is at `(x, y)`. -/
def cellAt (x y w h : Int) : Cell :=
  { Cell.new none with
    m_currentPoint := ⟨x, y + h / 2⟩, m_center := h / 2, m_width := w, m_height := h }

/-- A display chain of three cells of the size 10 by 10, side by side on one line. -/
def exampleRow : List Cell := [cellAt 0 0 10 10, cellAt 10 0 10 10, cellAt 20 0 10 10]

/-! ## The logical chain -/

theorem Cell.firstAux_linked (h : Heap) (n : Nat) (hl : LinkedUpTo h n) (c : Nat)
    (hc : c < n) (fuel : Nat) (hf : c < fuel) : Cell.firstAux h fuel c = some 0 := by
  obtain ⟨hpos, hlen, hlinks⟩ := hl
  induction c generalizing fuel with
  | zero =>
    cases fuel with
    | zero => omega
    | succ f =>
      have h0 : (0 : Nat) < h.length := by omega
      have hget : h[0]? = some h[0] := List.getElem?_eq_getElem h0
      have hprev := (hlinks 0 h[0] hpos hget).2
      simp only [Cell.firstAux, hget]
      simp at hprev
      simp [hprev]
  | succ k ih =>
    cases fuel with
    | zero => omega
    | succ f =>
      have hk1 : k + 1 < h.length := by omega
      have hk : k < h.length := by omega
      have hget : h[k + 1]? = some h[k + 1] := List.getElem?_eq_getElem hk1
      have hprev := (hlinks (k + 1) h[k + 1] hc hget).2
      simp at hprev
      have hd : h.deref (some k) = some h[k] := by
        simp [Heap.deref, List.getElem?_eq_getElem hk]
      simp only [Cell.firstAux, hget, hprev, hd]
      exact ih (by omega) f (by omega)

theorem Cell.lastAux_linked (h : Heap) (n : Nat) (hl : LinkedUpTo h n) (d : Nat) (c : Nat)
    (hc : c + d + 1 = n) (fuel : Nat) (hf : d < fuel) :
    Cell.lastAux h fuel c = some (n - 1) := by
  obtain ⟨hpos, hlen, hlinks⟩ := hl
  induction d generalizing c fuel with
  | zero =>
    cases fuel with
    | zero => omega
    | succ f =>
      have hcl : c < h.length := by omega
      have hget : h[c]? = some h[c] := List.getElem?_eq_getElem hcl
      have hnext := (hlinks c h[c] (by omega) hget).1
      have hno : ¬ c + 1 < n := by omega
      rw [if_neg hno] at hnext
      simp only [Cell.lastAux, hget, hnext]
      have hcn : c = n - 1 := by omega
      rw [← hcn]
  | succ k ih =>
    cases fuel with
    | zero => omega
    | succ f =>
      have hcl : c < h.length := by omega
      have hget : h[c]? = some h[c] := List.getElem?_eq_getElem hcl
      have hnext := (hlinks c h[c] (by omega) hget).1
      have hyes : c + 1 < n := by omega
      rw [if_pos hyes] at hnext
      simp only [Cell.lastAux, hget, hnext]
      exact ih (c + 1) (by omega) f (by omega)

theorem LinkedUpTo.appendCell (h : Heap) (hl : LinkedUpTo h h.length) (x : Nat)
    (hx : x < h.length) (c : Cell) (hn : c.m_next = none) (hp : c.m_previous = none) :
    ∃ h2, Cell.AppendCell (h ++ [c]) x h.length = some h2 ∧ LinkedUpTo h2 h2.length ∧
      h2.length = h.length + 1 := by
  obtain ⟨hpos, _, hlinks⟩ := hl
  have hl2 : LinkedUpTo (h ++ [c]) h.length := by
    refine ⟨hpos, by simp, ?_⟩
    intro i ci hi hget
    rw [List.getElem?_append_left hi] at hget
    exact hlinks i ci hi hget
  have hlast : Cell.last (h ++ [c]) x = some (h.length - 1) :=
    Cell.lastAux_linked (h ++ [c]) h.length hl2 (h.length - 1 - x) x (by omega) _
      (by simp; omega)
  have hnew : (h ++ [c])[h.length]? = some c := by
    rw [List.getElem?_append_right (Nat.le_refl _)]
    simp
  have htl : h.length - 1 < h.length := by omega
  obtain ⟨t, ht⟩ : ∃ t, h[h.length - 1]? = some t := ⟨_, List.getElem?_eq_getElem htl⟩
  have hgt : (h ++ [c])[h.length - 1]? = some t := by
    rw [List.getElem?_append_left htl]
    exact ht
  have hne : h.length - 1 ≠ h.length := by omega
  have hstep1 : ((h ++ [c]).set (h.length - 1)
      { t with m_next := some h.length })[h.length]? = some c := by
    rw [List.getElem?_set_ne hne]
    exact hnew
  refine ⟨((h ++ [c]).set (h.length - 1) { t with m_next := some h.length }).set h.length
    { c with m_previous := some (h.length - 1) }, ?_, ?_, by simp⟩
  · simp only [Cell.AppendCell, hlast, hnew, hp, Heap.deref, Option.bind, Option.isSome]
    simp only [Heap.modifyCell, hgt, hstep1]
    rfl
  · refine ⟨by simp, Nat.le_refl _, ?_⟩
    intro i ci hi hget
    simp only [List.length_set, List.length_append, List.length_singleton] at hi ⊢
    rw [List.getElem?_set, List.getElem?_set] at hget
    simp only [List.length_set, List.length_append, List.length_singleton] at hget
    by_cases h1 : h.length = i
    · rw [if_pos h1, if_pos (by omega)] at hget
      have hci : ci = { c with m_previous := some (h.length - 1) } := by
        simpa using hget.symm
      subst hci
      subst h1
      refine ⟨?_, ?_⟩
      · show c.m_next = _
        rw [hn, if_neg (by omega)]
      · show some (h.length - 1) = _
        rw [if_neg (by omega)]
    · rw [if_neg h1] at hget
      by_cases h2 : h.length - 1 = i
      · rw [if_pos h2, if_pos (by omega)] at hget
        have hci : ci = { t with m_next := some h.length } := by
          simpa using hget.symm
        subst hci
        have hprev := (hlinks (h.length - 1) t htl ht).2
        subst h2
        refine ⟨?_, ?_⟩
        · show some h.length = _
          have hsucc : h.length - 1 + 1 = h.length := by omega
          rw [hsucc, if_pos (by omega)]
        · exact hprev
      · rw [if_neg h2, List.getElem?_append_left (by omega)] at hget
        have hboth := hlinks i ci (by omega) hget
        refine ⟨?_, hboth.2⟩
        rw [hboth.1, if_pos (by omega), if_pos (by omega)]


theorem BuiltChain.linked (h : Heap) (hb : BuiltChain h) : LinkedUpTo h h.length := by
  induction hb with
  | single c hn hp =>
    refine ⟨by simp, Nat.le_refl _, ?_⟩
    intro i ci hi hget
    have hi0 : i = 0 := by
      simp only [List.length_singleton] at hi
      omega
    subst hi0
    have hci : ci = c := by simpa using hget.symm
    subst hci
    simp [hn, hp]
  | append h h2 x c _ hx hn hp happ ih =>
    obtain ⟨h3, h3app, h3l, _⟩ := LinkedUpTo.appendCell h ih x hx c hn hp
    rw [happ] at h3app
    have : h2 = h3 := by simpa using h3app
    subst this
    exact h3l

theorem BuiltChain.appendCell_defined (h : Heap) (hb : BuiltChain h) (x : Nat)
    (hx : x < h.length) (c : Cell) (hn : c.m_next = none) (hp : c.m_previous = none) :
    ∃ h2, Cell.AppendCell (h ++ [c]) x h.length = some h2 ∧ BuiltChain h2 := by
  obtain ⟨h2, happ, _, _⟩ := LinkedUpTo.appendCell h (BuiltChain.linked h hb) x hx c hn hp
  exact ⟨h2, happ, BuiltChain.append h h2 x c hb hx hn hp happ⟩

/-- C1: in a chain built from a single cell by repeated `AppendCell` calls,
`first()` of any two cells `x` and `y` is the same cell, which has no previous
cell, and `last()` of any two cells is the same cell, which has no next cell. -/
theorem first_and_last_same_for_all_cells (h : Heap) (hb : BuiltChain h) (x y : Nat)
    (hx : x < h.length) (hy : y < h.length) :
    ∃ f l fc lc,
      Cell.first h x = some f ∧ Cell.first h y = some f ∧
      h[f]? = some fc ∧ fc.m_previous = none ∧
      Cell.last h x = some l ∧ Cell.last h y = some l ∧
      h[l]? = some lc ∧ lc.m_next = none := by
  have hl := BuiltChain.linked h hb
  have hpos : 0 < h.length := hl.1
  have hlastlt : h.length - 1 < h.length := by omega
  refine ⟨0, h.length - 1, h[0], h[h.length - 1], ?_, ?_, ?_, ?_, ?_, ?_, ?_, ?_⟩
  · exact Cell.firstAux_linked h h.length hl x hx h.length hx
  · exact Cell.firstAux_linked h h.length hl y hy h.length hy
  · exact List.getElem?_eq_getElem hpos
  · have := (hl.2.2 0 h[0] hpos (List.getElem?_eq_getElem hpos)).2
    simpa using this
  · exact Cell.lastAux_linked h h.length hl (h.length - 1 - x) x (by omega) h.length (by omega)
  · exact Cell.lastAux_linked h h.length hl (h.length - 1 - y) y (by omega) h.length (by omega)
  · exact List.getElem?_eq_getElem hlastlt
  · have := (hl.2.2 (h.length - 1) h[h.length - 1] hlastlt
      (List.getElem?_eq_getElem hlastlt)).1
    rw [if_neg (by omega)] at this
    exact this

theorem exampleChain_built : BuiltChain exampleChain :=
  BuiltChain.append
    [{ Cell.new none with m_next := some 1 }, { Cell.new none with m_previous := some 0 }]
    exampleChain 0 (Cell.new none)
    (BuiltChain.append [Cell.new none] _ 0 (Cell.new none)
      (BuiltChain.single (Cell.new none) rfl rfl) (by decide) rfl rfl rfl)
    (by decide) rfl rfl rfl

/-- In `exampleChain` the cells 2 and 1 have the same first and the same last
cell. -/
theorem first_and_last_same_for_all_cells_witness :
    ∃ f l fc lc,
      Cell.first exampleChain 2 = some f ∧ Cell.first exampleChain 1 = some f ∧
      exampleChain[f]? = some fc ∧ fc.m_previous = none ∧
      Cell.last exampleChain 2 = some l ∧ Cell.last exampleChain 1 = some l ∧
      exampleChain[l]? = some lc ∧ lc.m_next = none :=
  first_and_last_same_for_all_cells exampleChain exampleChain_built 2 1 (by decide) (by decide)

/-! ## Weak references -/

theorem Registry.Resolve_Invalidate_self (r : Registry) (handle : Option CellId) (c : CellId)
    (hc : r.Resolve handle = some c) : (r.Invalidate c).Resolve handle = none := by
  cases handle with
  | none => simp [Registry.Resolve, Option.filter] at hc
  | some k =>
    simp only [Registry.Resolve, Registry.Invalidate, Option.filter] at hc ⊢
    split at hc
    · simp at hc; subst hc; simp
    · simp at hc

theorem Registry.Resolve_Invalidate_other (r : Registry) (handle : Option CellId)
    (c x : CellId) (hne : x ≠ c) (hx : r.Resolve handle = some x) :
    (r.Invalidate c).Resolve handle = some x := by
  cases handle with
  | none => simp [Registry.Resolve, Option.filter] at hx
  | some k =>
    simp only [Registry.Resolve, Registry.Invalidate, Option.filter] at hx ⊢
    split at hx
    · rename_i hk
      simp at hx; subst hx
      simp at hk
      simp [hk, hne]
    · simp at hx

/-- C2: destroying the cell `c` makes every weak handle that resolved to `c`
resolve to empty, in particular the working group of `CellPointers`, and every
handle that resolved to another cell `x` still resolves to `x`; the handles stored
in `CellPointers` are not written to. -/
theorem destroyCell_invalidates_only_its_handles (d : Document) (c : CellId)
    (handle : Option CellId) :
    (d.registry.Resolve handle = some c →
      (d.destroyCell c).registry.Resolve handle = none) ∧
    (∀ x, x ≠ c → d.registry.Resolve handle = some x →
      (d.destroyCell c).registry.Resolve handle = some x) ∧
    (d.pointers.GetWorkingGroup d.registry false = some c →
      ∀ resortToLast, (d.destroyCell c).pointers.GetWorkingGroup
        (d.destroyCell c).registry resortToLast ≠ some c) ∧
    (d.destroyCell c).pointers = d.pointers := by
  refine ⟨fun hc => ?_, fun x hne hx => ?_, fun _ b hstale => ?_, rfl⟩
  · exact Registry.Resolve_Invalidate_self d.registry handle c hc
  · exact Registry.Resolve_Invalidate_other d.registry handle c x hne hx
  · have hdead : ∀ q : Option CellId, (d.registry.Invalidate c).Resolve q ≠ some c := by
      intro q hq
      cases q with
      | none => simp [Registry.Resolve, Option.filter] at hq
      | some k =>
        simp only [Registry.Resolve, Registry.Invalidate, Option.filter] at hq
        split at hq
        · rename_i hk
          simp at hq
          simp [hq] at hk
        · simp at hq
    simp only [Document.destroyCell, CellPointers.GetWorkingGroup] at hstale
    split at hstale
    · exact hdead _ hstale
    · exact hdead _ hstale

/-- The working-group handle of `exampleDocument` is emptied by the destruction of
the group 2, and the handle of the cell under the pointer still resolves to 3. -/
theorem destroyCell_invalidates_only_its_handles_witness :
    (exampleDocument.destroyCell 2).registry.Resolve exampleDocument.pointers.m_workingGroup
        = none ∧
    (exampleDocument.destroyCell 2).registry.Resolve
        exampleDocument.pointers.m_cellUnderPointer = some 3 :=
  ⟨(destroyCell_invalidates_only_its_handles exampleDocument 2
      exampleDocument.pointers.m_workingGroup).1 (by decide),
   (destroyCell_invalidates_only_its_handles exampleDocument 2
      exampleDocument.pointers.m_cellUnderPointer).2.1 3 (by decide) (by decide)⟩

/-! ## `GetGroup` -/

/-- C3: `GetGroup()` returns the owning group when the back-reference resolves to
one, signals an error exactly when the back-reference is null, and returns no
group for a cell whose group was never set. -/
theorem GetGroup_ok_iff_group_set (r : Registry) (c : Cell) :
    (∀ g, r.Resolve c.m_group = some g → c.GetGroup r = Except.ok g) ∧
    ((c.GetGroup r = Except.error "ungrouped cell") ↔ r.Resolve c.m_group = none) ∧
    (∀ g, c.GetGroup r = Except.ok g → r.Resolve c.m_group = some g) ∧
    (c.m_group = none → ∀ g, c.GetGroup r ≠ Except.ok g) := by
  unfold Cell.GetGroup
  refine ⟨?_, ?_, ?_, ?_⟩
  · intro g hg
    simp [hg]
  · cases hres : r.Resolve c.m_group <;> simp
  · intro g
    cases hres : r.Resolve c.m_group <;> simp
  · intro hnone g
    simp [hnone, Registry.Resolve, Option.filter]

/-- A cell attached to the live group 2 gets that group; a newly constructed cell
without group gets none. -/
theorem GetGroup_ok_iff_group_set_witness :
    (Cell.new (some 2)).GetGroup ⟨[1, 2, 3]⟩ = Except.ok 2 ∧
    (∀ g, (Cell.new none).GetGroup ⟨[1, 2, 3]⟩ ≠ Except.ok g) :=
  ⟨(GetGroup_ok_iff_group_set ⟨[1, 2, 3]⟩ (Cell.new (some 2))).1 2 (by decide),
   (GetGroup_ok_iff_group_set ⟨[1, 2, 3]⟩ (Cell.new none)).2.2.2 rfl⟩

/-! ## Selection by rectangle -/

theorem wxRect.Intersects_of_ContainsRect (a b : wxRect) (hc : a.ContainsRect b = true)
    (hw : 0 < b.width) (hh : 0 < b.height) : a.Intersects b = true := by
  simp only [wxRect.ContainsRect, wxRect.Contains, wxRect.GetRight, wxRect.GetBottom,
    Bool.and_eq_true, decide_eq_true_eq] at hc
  obtain ⟨⟨⟨⟨h1, h2⟩, h3⟩, h4⟩, ⟨⟨h5, h6⟩, h7⟩, h8⟩ := hc
  simp only [wxRect.Intersects, wxRect.Intersect, wxRect.GetRight, wxRect.GetBottom]
  split_ifs <;> simp <;> omega

theorem Cell.SelectFirst_shift (rect : wxRect) (chain : List Cell) (i : Nat) :
    Cell.SelectFirst rect chain i = (Cell.SelectFirst rect chain 0).map (fun j => j + i) := by
  induction chain generalizing i with
  | nil => rfl
  | cons c rest ih =>
    simp only [Cell.SelectFirst]
    split
    · simp
    · rw [ih (i + 1), ih (0 + 1)]
      cases Cell.SelectFirst rect rest 0 <;> simp [Nat.add_comm, Nat.add_left_comm]

theorem Cell.SelectLast_shift (rect : wxRect) (chain : List Cell) (i : Nat) (acc : Option Nat) :
    Cell.SelectLast rect chain i acc =
      match Cell.SelectLast rect chain 0 none with
      | some j => some (j + i)
      | none => acc := by
  induction chain generalizing i acc with
  | nil => rfl
  | cons c rest ih =>
    simp only [Cell.SelectLast]
    rw [ih (i + 1), ih (0 + 1)]
    cases Cell.SelectLast rect rest 0 none with
    | some j =>
      simp only [Option.some.injEq]
      omega
    | none =>
      by_cases hc : rect.Intersects c.GetRect = true <;> simp [hc]

theorem Cell.SelectLast_eq_none (rect : wxRect) (chain : List Cell)
    (h : Cell.SelectLast rect chain 0 none = none) (j : Nat) (cj : Cell)
    (hget : chain[j]? = some cj) : rect.Intersects cj.GetRect = false := by
  induction chain generalizing j with
  | nil => simp at hget
  | cons c rest ih =>
    simp only [Cell.SelectLast] at h
    rw [Cell.SelectLast_shift] at h
    cases hs : Cell.SelectLast rect rest 0 none with
    | some m => simp [hs] at h
    | none =>
      rw [hs] at h
      cases j with
      | zero =>
        simp at hget
        subst hget
        by_cases hc : rect.Intersects c.GetRect = true
        · simp [hc] at h
        · simpa using hc
      | succ n => exact ih hs n (by simpa using hget)

theorem Cell.SelectFirst_eq_some (rect : wxRect) (chain : List Cell) (k : Nat) :
    Cell.SelectFirst rect chain 0 = some k ↔
      (∃ c, chain[k]? = some c ∧ rect.Intersects c.GetRect = true) ∧
      ∀ j c, j < k → chain[j]? = some c → rect.Intersects c.GetRect = false := by
  induction chain generalizing k with
  | nil => simp [Cell.SelectFirst]
  | cons c rest ih =>
    simp only [Cell.SelectFirst]
    by_cases hc : rect.Intersects c.GetRect = true
    · rw [if_pos hc]
      constructor
      · intro h
        have hk : k = 0 := by simpa using h.symm
        subst hk
        exact ⟨⟨c, by simp, hc⟩, fun j _ hj => absurd hj (Nat.not_lt_zero j)⟩
      · rintro ⟨_, hbefore⟩
        cases k with
        | zero => rfl
        | succ n =>
          have := hbefore 0 c (Nat.succ_pos n) (by simp)
          rw [hc] at this
          exact absurd this (by decide)
    · rw [if_neg hc, Cell.SelectFirst_shift]
      have hc2 : rect.Intersects c.GetRect = false := by simpa using hc
      cases k with
      | zero =>
        constructor
        · intro h
          cases hs : Cell.SelectFirst rect rest 0 <;> simp [hs] at h
        · rintro ⟨⟨c2, h0, hhit⟩, _⟩
          simp at h0
          subst h0
          exact absurd hhit hc
      | succ n =>
        have ihn := ih n
        constructor
        · intro h
          have h2 : Cell.SelectFirst rect rest 0 = some n := by
            cases hs : Cell.SelectFirst rect rest 0 with
            | none => simp [hs] at h
            | some m => simp [hs] at h; simp [h]
          obtain ⟨⟨c2, hget, hhit⟩, hbefore⟩ := ihn.mp h2
          refine ⟨⟨c2, by simpa using hget, hhit⟩, ?_⟩
          intro j cj hj hgetj
          cases j with
          | zero => simp at hgetj; subst hgetj; exact hc2
          | succ m => exact hbefore m cj (by omega) (by simpa using hgetj)
        · rintro ⟨⟨c2, hget, hhit⟩, hbefore⟩
          have h2 : Cell.SelectFirst rect rest 0 = some n := by
            apply ihn.mpr
            refine ⟨⟨c2, by simpa using hget, hhit⟩, ?_⟩
            intro j cj hj hgetj
            exact hbefore (j + 1) cj (by omega) (by simpa using hgetj)
          simp [h2]

theorem Cell.SelectLast_eq_some (rect : wxRect) (chain : List Cell) (k : Nat) :
    Cell.SelectLast rect chain 0 none = some k ↔
      (∃ c, chain[k]? = some c ∧ rect.Intersects c.GetRect = true) ∧
      ∀ j c, k < j → chain[j]? = some c → rect.Intersects c.GetRect = false := by
  induction chain generalizing k with
  | nil => simp [Cell.SelectLast]
  | cons c rest ih =>
    simp only [Cell.SelectLast]
    rw [Cell.SelectLast_shift]
    cases hs : Cell.SelectLast rect rest 0 none with
    | some m =>
      obtain ⟨⟨cm, hgetm, hhitm⟩, hafterm⟩ := (ih m).mp hs
      simp only
      constructor
      · intro h
        have hk : k = m + 1 := by simpa using h.symm
        subst hk
        refine ⟨⟨cm, by simpa using hgetm, hhitm⟩, ?_⟩
        intro j cj hj hgetj
        cases j with
        | zero => omega
        | succ j2 => exact hafterm j2 cj (by omega) (by simpa using hgetj)
      · rintro ⟨⟨c2, hget, hhit⟩, hafter⟩
        cases k with
        | zero =>
          have := hafter (m + 1) cm (Nat.succ_pos m) (by simpa using hgetm)
          rw [hhitm] at this
          exact absurd this (by decide)
        | succ n =>
          have hn : Cell.SelectLast rect rest 0 none = some n := by
            apply (ih n).mpr
            refine ⟨⟨c2, by simpa using hget, hhit⟩, ?_⟩
            intro j cj hj hgetj
            exact hafter (j + 1) cj (by omega) (by simpa using hgetj)
          rw [hs] at hn
          simpa using hn
    | none =>
      simp only
      have hnone := Cell.SelectLast_eq_none rect rest hs
      by_cases hc : rect.Intersects c.GetRect = true
      · rw [if_pos hc]
        constructor
        · intro h
          have hk : k = 0 := by simpa using h.symm
          subst hk
          refine ⟨⟨c, by simp, hc⟩, ?_⟩
          intro j cj hj hgetj
          cases j with
          | zero => omega
          | succ j2 => exact hnone j2 cj (by simpa using hgetj)
        · rintro ⟨⟨c2, hget, hhit⟩, _⟩
          cases k with
          | zero => rfl
          | succ n =>
            have := hnone n c2 (by simpa using hget)
            rw [hhit] at this
            exact absurd this (by decide)
      · rw [if_neg hc]
        constructor
        · intro h
          simp at h
        · rintro ⟨⟨c2, hget, hhit⟩, _⟩
          cases k with
          | zero =>
            simp at hget
            subst hget
            exact absurd hhit hc
          | succ n =>
            have := hnone n c2 (by simpa using hget)
            rw [hhit] at this
            exact absurd this (by decide)

/-- C4: on a display chain, `SelectRect` returns as first the earliest and as last
the latest cell whose bounding rectangle intersects the rectangle. On a chain
A, B, C a rectangle that intersects only B gives first = B and last = B; one that
intersects A and C, in particular one that covers their non-empty bounding
rectangles, gives first = A and last = C. -/
theorem SelectRect_first_and_last_hit (rect : wxRect) (chain : List Cell) :
    (∀ k, (Cell.SelectRect rect chain).1 = some k ↔
      (∃ c, chain[k]? = some c ∧ rect.Intersects c.GetRect = true) ∧
      ∀ j c, j < k → chain[j]? = some c → rect.Intersects c.GetRect = false) ∧
    (∀ k, (Cell.SelectRect rect chain).2 = some k ↔
      (∃ c, chain[k]? = some c ∧ rect.Intersects c.GetRect = true) ∧
      ∀ j c, k < j → chain[j]? = some c → rect.Intersects c.GetRect = false) ∧
    (∀ A B C : Cell, chain = [A, B, C] → rect.Intersects A.GetRect = false →
      rect.Intersects B.GetRect = true → rect.Intersects C.GetRect = false →
      Cell.SelectRect rect chain = (some 1, some 1)) ∧
    (∀ A B C : Cell, chain = [A, B, C] → rect.Intersects A.GetRect = true →
      rect.Intersects C.GetRect = true →
      Cell.SelectRect rect chain = (some 0, some 2)) ∧
    (∀ A B C : Cell, chain = [A, B, C] →
      rect.ContainsRect A.GetRect = true → 0 < A.GetWidth → 0 < A.GetHeight →
      rect.ContainsRect C.GetRect = true → 0 < C.GetWidth → 0 < C.GetHeight →
      Cell.SelectRect rect chain = (some 0, some 2)) := by
  refine ⟨fun k => Cell.SelectFirst_eq_some rect chain k,
    fun k => Cell.SelectLast_eq_some rect chain k, ?_, ?_, ?_⟩
  · intro A B C hch hA hB hC
    subst hch
    simp [Cell.SelectRect, Cell.SelectFirst, Cell.SelectLast, hA, hB, hC]
  · intro A B C hch hA hC
    subst hch
    simp [Cell.SelectRect, Cell.SelectFirst, Cell.SelectLast, hA, hC]
  · intro A B C hch hA hAw hAh hC hCw hCh
    subst hch
    have hA2 := wxRect.Intersects_of_ContainsRect rect A.GetRect hA hAw hAh
    have hC2 := wxRect.Intersects_of_ContainsRect rect C.GetRect hC hCw hCh
    simp [Cell.SelectRect, Cell.SelectFirst, Cell.SelectLast, hA2, hC2]

/-- On `exampleRow` a rectangle inside the middle cell selects that cell alone, and
a rectangle from the first into the third cell selects all three. -/
theorem SelectRect_first_and_last_hit_witness :
    Cell.SelectRect ⟨12, 2, 5, 5⟩ exampleRow = (some 1, some 1) ∧
    Cell.SelectRect ⟨5, 2, 20, 5⟩ exampleRow = (some 0, some 2) :=
  ⟨(SelectRect_first_and_last_hit ⟨12, 2, 5, 5⟩ exampleRow).2.2.1 _ _ _ rfl
      (by decide) (by decide) (by decide),
   (SelectRect_first_and_last_hit ⟨5, 2, 20, 5⟩ exampleRow).2.2.2.1 _ _ _ rfl
      (by decide) (by decide)⟩

/-! ## The working group -/

theorem CellPointers.SetWorkingGroup_null_keeps_last (p : CellPointers) :
    (p.SetWorkingGroup none).m_lastWorkingGroup = p.m_lastWorkingGroup := by
  simp [CellPointers.SetWorkingGroup]

theorem CellPointers.SetWorkingGroup_nulls_keep_last (k : Nat) (p : CellPointers) :
    ((List.replicate k none).foldl CellPointers.SetWorkingGroup p).m_lastWorkingGroup
      = p.m_lastWorkingGroup := by
  induction k generalizing p with
  | zero => rfl
  | succ n ih =>
    rw [List.replicate_succ, List.foldl_cons, ih, CellPointers.SetWorkingGroup_null_keeps_last]

/-- C6: after `SetWorkingGroup(g)` with a live group `g`, `GetWorkingGroup` returns
`g` for both values of `resortToLast`; after `SetWorkingGroup(NULL)`,
`GetWorkingGroup(false)` returns null and `GetWorkingGroup(true)` returns the last
non-null group that was set before, however many times null was set since. -/
theorem GetWorkingGroup_after_SetWorkingGroup (r : Registry) (p : CellPointers) (g : CellId)
    (hlive : g ∈ r.live) :
    (∀ resortToLast,
      (p.SetWorkingGroup (some g)).GetWorkingGroup r resortToLast = some g) ∧
    (p.SetWorkingGroup none).GetWorkingGroup r false = none ∧
    (∀ k : Nat,
      (((List.replicate k none).foldl CellPointers.SetWorkingGroup
          (p.SetWorkingGroup (some g))).SetWorkingGroup none).GetWorkingGroup r true
        = some g) := by
  refine ⟨?_, ?_, ?_⟩
  · intro b
    simp [CellPointers.SetWorkingGroup, CellPointers.GetWorkingGroup, Registry.Resolve,
      Option.filter, hlive]
  · simp [CellPointers.SetWorkingGroup, CellPointers.GetWorkingGroup, Registry.Resolve,
      Option.filter]
  · intro k
    have hlast := CellPointers.SetWorkingGroup_nulls_keep_last k (p.SetWorkingGroup (some g))
    have hset : (p.SetWorkingGroup (some g)).m_lastWorkingGroup = some g := by
      simp [CellPointers.SetWorkingGroup]
    rw [hset] at hlast
    have hfin := CellPointers.SetWorkingGroup_null_keeps_last
      ((List.replicate k none).foldl CellPointers.SetWorkingGroup (p.SetWorkingGroup (some g)))
    rw [hlast] at hfin
    have hwork : (((List.replicate k none).foldl CellPointers.SetWorkingGroup
        (p.SetWorkingGroup (some g))).SetWorkingGroup none).m_workingGroup = none := by
      simp [CellPointers.SetWorkingGroup]
    simp [CellPointers.GetWorkingGroup, hwork, hfin, Registry.Resolve, Option.filter, hlive]

/-- In a document with the live cells 1, 2, 3: setting the working group to 2 and
then to null leaves `GetWorkingGroup(true)` at 2. -/
theorem GetWorkingGroup_after_SetWorkingGroup_witness :
    ((CellPointers.empty.SetWorkingGroup (some 2)).SetWorkingGroup none).GetWorkingGroup
        ⟨[1, 2, 3]⟩ true = some 2 ∧
    (CellPointers.empty.SetWorkingGroup (some 2)).GetWorkingGroup ⟨[1, 2, 3]⟩ false = some 2 :=
  ⟨(GetWorkingGroup_after_SetWorkingGroup ⟨[1, 2, 3]⟩ CellPointers.empty 2 (by decide)).2.2 0,
   (GetWorkingGroup_after_SetWorkingGroup ⟨[1, 2, 3]⟩ CellPointers.empty 2 (by decide)).1 false⟩

/-! ## Classification predicates -/

/-- C7 as stated fails: a text cell without any predecessor is editable when
`input` is false. -/
theorem IsEditable_text_cell_without_predecessor :
    ¬ (∀ (h : Heap) (c : Cell) (input : Bool), c.IsEditable h input = true →
        ∃ p, h.deref c.m_previous = some p ∧ p.m_type = CellType.MC_TYPE_MAIN_PROMPT) := by
  intro hall
  obtain ⟨p, hp, _⟩ := hall [] exampleTextCell false (by decide)
  simp [Heap.deref, exampleTextCell, Cell.new] at hp

/-- C7, amended: `IsEditable(input)` returns true only if the immediately preceding
logical sibling exists and has the type `MC_TYPE_MAIN_PROMPT`, or `input` is false
and the cell is a comment cell. -/
theorem IsEditable_only_if_prompt_or_comment (h : Heap) (c : Cell) (input : Bool)
    (he : c.IsEditable h input = true) :
    (∃ p, h.deref c.m_previous = some p ∧ p.m_type = CellType.MC_TYPE_MAIN_PROMPT) ∨
    (input = false ∧ c.IsComment = true) := by
  unfold Cell.IsEditable at he
  rw [Bool.or_eq_true, Bool.and_eq_true, Bool.and_eq_true] at he
  rcases he with ⟨_, hprev⟩ | ⟨hin, hcom⟩
  · left
    cases hd : h.deref c.m_previous with
    | none => simp [hd] at hprev
    | some p =>
      rw [hd] at hprev
      exact ⟨p, rfl, by simpa using hprev⟩
  · right
    exact ⟨by simpa using hin, hcom⟩

/-- An input cell behind a main prompt is editable, and the amended claim finds
the prompt. -/
theorem IsEditable_only_if_prompt_or_comment_witness :
    (∃ p, Heap.deref [{ Cell.new none with m_type := CellType.MC_TYPE_MAIN_PROMPT }]
        (some 0) = some p ∧ p.m_type = CellType.MC_TYPE_MAIN_PROMPT) ∨
    (true = false ∧
      Cell.IsComment { Cell.new none with
        m_type := CellType.MC_TYPE_INPUT, m_previous := some 0 } = true) :=
  IsEditable_only_if_prompt_or_comment
    [{ Cell.new none with m_type := CellType.MC_TYPE_MAIN_PROMPT }]
    { Cell.new none with m_type := CellType.MC_TYPE_INPUT, m_previous := some 0 } true
    (by decide)

/-- C8: `IsComment()` is true exactly for the types text, title, section,
subsection, subsubsection, heading5 and heading6, false exactly for the ten other
types, and equal for any two cells of the same type. -/
theorem IsComment_iff_comment_type (c : Cell) :
    (c.IsComment = true ↔
      c.m_type ∈ [CellType.MC_TYPE_TEXT, CellType.MC_TYPE_TITLE, CellType.MC_TYPE_SECTION,
        CellType.MC_TYPE_SUBSECTION, CellType.MC_TYPE_SUBSUBSECTION,
        CellType.MC_TYPE_HEADING5, CellType.MC_TYPE_HEADING6]) ∧
    (c.IsComment = false ↔
      c.m_type ∈ [CellType.MC_TYPE_DEFAULT, CellType.MC_TYPE_MAIN_PROMPT,
        CellType.MC_TYPE_PROMPT, CellType.MC_TYPE_LABEL, CellType.MC_TYPE_INPUT,
        CellType.MC_TYPE_WARNING, CellType.MC_TYPE_ERROR, CellType.MC_TYPE_IMAGE,
        CellType.MC_TYPE_SLIDE, CellType.MC_TYPE_GROUP]) ∧
    (∀ c2 : Cell, c2.m_type = c.m_type → c2.IsComment = c.IsComment) := by
  refine ⟨?_, ?_, ?_⟩
  · unfold Cell.IsComment
    cases c.m_type <;> decide
  · unfold Cell.IsComment
    cases c.m_type <;> decide
  · intro c2 h2
    unfold Cell.IsComment
    rw [h2]

/-- A highlighted, hidden text cell with a successor is a comment like the plain
text cell. -/
theorem IsComment_iff_comment_type_witness :
    Cell.IsComment { exampleTextCell with
      m_highlight := true, m_isHidden := true, m_next := some 5 } = exampleTextCell.IsComment :=
  (IsComment_iff_comment_type exampleTextCell).2.2 _ rfl

/-! ## Dirty bits and the constructed state -/

/-- C9: none of the state-changing operations whose body is in `Cell.h` clears a
dirty bit: each of the five bits that is set before the call is set after it. -/
theorem dirty_bits_never_cleared (op : CellOp) (c : Cell) :
    (c.m_recalculateWidths = true → (op.run c).m_recalculateWidths = true) ∧
    (c.m_recalculate_maxCenter = true → (op.run c).m_recalculate_maxCenter = true) ∧
    (c.m_recalculate_maxDrop = true → (op.run c).m_recalculate_maxDrop = true) ∧
    (c.m_recalculate_maxWidth = true → (op.run c).m_recalculate_maxWidth = true) ∧
    (c.m_recalculate_lineWidth = true → (op.run c).m_recalculate_lineWidth = true) := by
  cases op <;>
    simp only [CellOp.run, Cell.ResetSize, Cell.ResetCellListSizes, Cell.SoftLineBreak,
      Cell.ForceBreakLine, Cell.BreakPage, Cell.Hide, Cell.SetHighlight, Cell.SetSkip,
      Cell.SetCurrentPoint, Cell.SetAltCopyText, Cell.ClearToolTip,
      Cell.SetSuppressMultiplicationDot, Cell.SetHidableMultSign] <;>
    (try split) <;> simp

/-- The pending width recalculation of `exampleMeasuredCell` survives moving the
cell. -/
theorem dirty_bits_never_cleared_witness :
    ((CellOp.SetCurrentPoint ⟨10, 20⟩).run exampleMeasuredCell).m_recalculateWidths = true :=
  (dirty_bits_never_cleared (CellOp.SetCurrentPoint ⟨10, 20⟩) exampleMeasuredCell).1 rfl

/-- C10: a newly constructed cell needs recalculation: width, height, center and
the cached full width, line width, max center and max drop are all the sentinel
-1, which is not the size 0, and all five dirty bits are set. -/
theorem new_cell_needs_recalculation (group : Option CellId) :
    (Cell.new group).GetWidth = -1 ∧ (Cell.new group).GetHeight = -1 ∧
    (Cell.new group).GetCenter = -1 ∧
    (Cell.new group).m_fullWidth = -1 ∧ (Cell.new group).m_lineWidth = -1 ∧
    (Cell.new group).m_maxCenter = -1 ∧ (Cell.new group).m_maxDrop = -1 ∧
    (Cell.new group).m_recalculateWidths = true ∧
    (Cell.new group).m_recalculate_maxCenter = true ∧
    (Cell.new group).m_recalculate_maxDrop = true ∧
    (Cell.new group).m_recalculate_maxWidth = true ∧
    (Cell.new group).m_recalculate_lineWidth = true ∧
    (Cell.new group).GetWidth ≠ 0 ∧ (Cell.new group).GetHeight ≠ 0 ∧
    (Cell.new group).GetCenter ≠ 0 := by
  simp [Cell.new, Cell.GetWidth, Cell.GetHeight, Cell.GetCenter]

/-! ## Height, center and drop -/

/-- C11 fails on the code: for a newly constructed cell, whose cached height and
center are both the sentinel -1, `GetDrop()` is 0 and not -1. -/
theorem GetDrop_of_unmeasured_cell_is_zero :
    (Cell.new none).GetHeight = -1 ∧ (Cell.new none).GetCenter = -1 ∧
    (Cell.new none).GetDrop = 0 ∧ (Cell.new none).GetDrop ≠ -1 ∧
    (∀ c : Cell, Cell.GetDrop { c with m_height := -1, m_center := -1 } = 0) := by
  refine ⟨rfl, rfl, by decide, by decide, ?_⟩
  intro c
  simp [Cell.GetDrop]

/-- C12: in exact integer arithmetic `GetCenter() + GetDrop() = GetHeight()` for
every cell state; the same sum computed in 32-bit two's complement registers is
the height as well. -/
theorem GetCenter_add_GetDrop (c : Cell) :
    c.GetCenter + c.GetDrop = c.GetHeight ∧
    wrapInt32 (c.GetCenter + wrapInt32 (c.m_height - c.m_center)) = wrapInt32 c.GetHeight := by
  unfold Cell.GetCenter Cell.GetDrop Cell.GetHeight wrapInt32
  constructor <;> omega

/-! ## Line and page breaks -/

/-- C13: after `ForceBreakLine(true)` the predicates `HardLineBreak()`,
`BreakLineHere()` and `LineBreakAtBeginning()` are all true; after
`ForceBreakLine(false)` the predicate `HardLineBreak()` is false; in both cases
`BreakPageHere()` is unchanged. -/
theorem ForceBreakLine_sets_and_removes_forced_break (c : Cell) (force : Bool) :
    (c.ForceBreakLine true).HardLineBreak = true ∧
    (c.ForceBreakLine true).BreakLineHere = true ∧
    (c.ForceBreakLine true).LineBreakAtBeginning = true ∧
    (c.ForceBreakLine false).HardLineBreak = false ∧
    (c.ForceBreakLine force).BreakPageHere = c.BreakPageHere := by
  simp [Cell.ForceBreakLine, Cell.HardLineBreak, Cell.BreakLineHere,
    Cell.LineBreakAtBeginning, Cell.BreakPageHere]

/-- C16: `SoftLineBreak(b)` sets the soft line-break flag to `b`, returns true
exactly when the flag had the value `b` before, so that a repeated call with the
same `b` returns true, and leaves the forced-line-break and the page-break flag
unchanged. -/
theorem SoftLineBreak_sets_flag_and_reports_change (c : Cell) (b : Bool) :
    (c.SoftLineBreak b).1.m_breakLine = b ∧
    ((c.SoftLineBreak b).2 = true ↔ c.m_breakLine = b) ∧
    ((c.SoftLineBreak b).1.SoftLineBreak b).2 = true ∧
    (c.SoftLineBreak b).1.HardLineBreak = c.HardLineBreak ∧
    (c.SoftLineBreak b).1.BreakPageHere = c.BreakPageHere := by
  simp [Cell.SoftLineBreak, Cell.HardLineBreak, Cell.BreakPageHere]

/-- C17: `ForceBreakLine(false)` clears the soft line-break flag together with the
forced one, so `BreakLineHere()` is false afterwards; the soft break set by
`SoftLineBreak(true)` is not restored by `ForceBreakLine(true)` followed by
`ForceBreakLine(false)`. -/
theorem ForceBreakLine_false_clears_soft_break (c : Cell) :
    (c.ForceBreakLine false).m_breakLine = false ∧
    (c.ForceBreakLine false).BreakLineHere = false ∧
    ((c.SoftLineBreak true).1.ForceBreakLine false).BreakLineHere = false ∧
    (c.SoftLineBreak true).1.m_breakLine = true ∧
    (((c.SoftLineBreak true).1.ForceBreakLine true).ForceBreakLine false).m_breakLine = false ∧
    (((c.SoftLineBreak true).1.ForceBreakLine true).ForceBreakLine false).BreakLineHere
      = false := by
  simp [Cell.ForceBreakLine, Cell.SoftLineBreak, Cell.BreakLineHere]

/-- C18: `HardLineBreak()` implies `BreakLineHere()`, which implies
`LineBreakAtBeginning()`; a forced break survives `SoftLineBreak(false)`; and
`BreakPage(true)` on a cell with neither a soft nor a forced break makes
`LineBreakAtBeginning()` true while `BreakLineHere()` stays false. -/
theorem break_predicates_are_nested (c : Cell) :
    (c.HardLineBreak = true → c.BreakLineHere = true) ∧
    (c.BreakLineHere = true → c.LineBreakAtBeginning = true) ∧
    (c.HardLineBreak = true → (c.SoftLineBreak false).1.BreakLineHere = true) ∧
    (c.BreakLineHere = false →
      (c.BreakPage true).LineBreakAtBeginning = true ∧
      (c.BreakPage true).BreakLineHere = false) := by
  refine ⟨?_, ?_, ?_, ?_⟩
  · intro h
    simp only [Cell.HardLineBreak] at h
    simp [Cell.BreakLineHere, h]
  · intro h
    simp only [Cell.BreakLineHere, Bool.or_eq_true] at h
    simp only [Cell.LineBreakAtBeginning, Bool.or_eq_true]
    rcases h with h | h
    · exact Or.inl (Or.inl h)
    · exact Or.inr h
  · intro h
    simp only [Cell.HardLineBreak] at h
    simp [Cell.SoftLineBreak, Cell.BreakLineHere, h]
  · intro h
    simp only [Cell.BreakLineHere, Bool.or_eq_false_iff] at h
    simp [Cell.BreakPage, Cell.LineBreakAtBeginning, Cell.BreakLineHere, h.1, h.2]

/-- A cell with a forced break keeps `BreakLineHere()` through `SoftLineBreak(false)`,
and a page break on a new cell is a line break at the beginning only. -/
theorem break_predicates_are_nested_witness :
    ((exampleInputCell.ForceBreakLine true).SoftLineBreak false).1.BreakLineHere = true ∧
    ((Cell.new none).BreakPage true).LineBreakAtBeginning = true ∧
    ((Cell.new none).BreakPage true).BreakLineHere = false :=
  ⟨(break_predicates_are_nested (exampleInputCell.ForceBreakLine true)).2.2.1 rfl,
   (break_predicates_are_nested (Cell.new none)).2.2.2 rfl⟩

/-! ## Hit test -/

/-- C14: `ContainsPoint(p)` is true exactly when `p` lies inside the rectangle
`GetRect(false)` of this cell, left ≤ p.x < left + width and
top ≤ p.y < top + height; the rectangle of the cells that follow, `GetRect(true)`,
and the link to the next cell have no influence on it. -/
theorem ContainsPoint_iff_in_own_rect (getRect : Bool → wxRect) (p : wxPoint) :
    (Cell.ContainsPoint getRect p = true ↔
      (getRect false).x ≤ p.x ∧ p.x < (getRect false).x + (getRect false).width ∧
      (getRect false).y ≤ p.y ∧ p.y < (getRect false).y + (getRect false).height) ∧
    (∀ getRect2 : Bool → wxRect, getRect2 false = getRect false →
      Cell.ContainsPoint getRect2 p = Cell.ContainsPoint getRect p) ∧
    (∀ (c : Cell) (listRect1 listRect2 : wxRect) (next : Option CellId),
      Cell.ContainsPoint (Cell.GetRectOf { c with m_next := next } listRect1) p
        = Cell.ContainsPoint (c.GetRectOf listRect2) p) ∧
    (∀ (c : Cell) (listRect : wxRect),
      Cell.ContainsPoint (c.GetRectOf listRect) p = true ↔
        c.m_currentPoint.x ≤ p.x ∧ p.x < c.m_currentPoint.x + c.m_width ∧
        c.m_currentPoint.y - c.m_center ≤ p.y ∧
        p.y < c.m_currentPoint.y - c.m_center + c.m_height) := by
  refine ⟨?_, ?_, ?_, ?_⟩
  · simp only [Cell.ContainsPoint, wxRect.Contains, Bool.and_eq_true, decide_eq_true_eq]
    constructor
    · rintro ⟨⟨⟨h1, h2⟩, h3⟩, h4⟩
      exact ⟨h1, by omega, h2, by omega⟩
    · rintro ⟨h1, h2, h3, h4⟩
      exact ⟨⟨⟨h1, h3⟩, by omega⟩, by omega⟩
  · intro getRect2 h2
    simp [Cell.ContainsPoint, h2]
  · intro c r1 r2 next
    simp [Cell.ContainsPoint, Cell.GetRectOf, Cell.GetRect]
  · intro c r
    simp only [Cell.ContainsPoint, Cell.GetRectOf, Cell.GetRect, wxRect.Contains,
      Bool.and_eq_true, decide_eq_true_eq, Bool.false_eq_true, if_false]
    constructor
    · rintro ⟨⟨⟨h1, h2⟩, h3⟩, h4⟩
      exact ⟨h1, by omega, h2, by omega⟩
    · rintro ⟨h1, h2, h3, h4⟩
      exact ⟨⟨⟨h1, h3⟩, by omega⟩, by omega⟩

/-- The second cell of `exampleRow` contains the point (12, 3) whatever rectangle
its list has. -/
theorem ContainsPoint_iff_in_own_rect_witness :
    Cell.ContainsPoint (fun all => if all then ⟨10, 0, 20, 10⟩ else ⟨10, 0, 10, 10⟩) ⟨12, 3⟩
      = Cell.ContainsPoint ((cellAt 10 0 10 10).GetRectOf ⟨0, 0, 0, 0⟩) ⟨12, 3⟩ :=
  (ContainsPoint_iff_in_own_rect ((cellAt 10 0 10 10).GetRectOf ⟨0, 0, 0, 0⟩) ⟨12, 3⟩).2.1
    (fun all => if all then ⟨10, 0, 20, 10⟩ else ⟨10, 0, 10, 10⟩) (by decide)

/-! ## Resetting the dirty bits -/

/-- C15: `ResetCellListSizes()` sets the four list-level dirty bits and changes
nothing else, the widths bit included: putting the four bits back gives the
state before the call. `ResetSize()` sets all five dirty bits and changes nothing
else, so the cached width, height and center stay. `ResetSize()` is idempotent,
and `ResetCellListSizes()` followed by `ResetSize()` is `ResetSize()` alone. -/
theorem ResetSize_and_ResetCellListSizes_frame (c : Cell) :
    (c.ResetCellListSizes.m_recalculate_maxCenter = true ∧
     c.ResetCellListSizes.m_recalculate_maxDrop = true ∧
     c.ResetCellListSizes.m_recalculate_maxWidth = true ∧
     c.ResetCellListSizes.m_recalculate_lineWidth = true) ∧
    c.ResetCellListSizes.m_recalculateWidths = c.m_recalculateWidths ∧
    { c.ResetCellListSizes with
      m_recalculate_maxCenter := c.m_recalculate_maxCenter
      m_recalculate_maxDrop := c.m_recalculate_maxDrop
      m_recalculate_maxWidth := c.m_recalculate_maxWidth
      m_recalculate_lineWidth := c.m_recalculate_lineWidth } = c ∧
    (c.ResetSize.m_recalculateWidths = true ∧
     c.ResetSize.m_recalculate_maxCenter = true ∧
     c.ResetSize.m_recalculate_maxDrop = true ∧
     c.ResetSize.m_recalculate_maxWidth = true ∧
     c.ResetSize.m_recalculate_lineWidth = true) ∧
    { c.ResetSize with
      m_recalculateWidths := c.m_recalculateWidths
      m_recalculate_maxCenter := c.m_recalculate_maxCenter
      m_recalculate_maxDrop := c.m_recalculate_maxDrop
      m_recalculate_maxWidth := c.m_recalculate_maxWidth
      m_recalculate_lineWidth := c.m_recalculate_lineWidth } = c ∧
    (c.ResetSize.GetWidth = c.GetWidth ∧ c.ResetSize.GetHeight = c.GetHeight ∧
     c.ResetSize.GetCenter = c.GetCenter) ∧
    c.ResetSize.ResetSize = c.ResetSize ∧
    c.ResetCellListSizes.ResetSize = c.ResetSize := by
  refine ⟨⟨rfl, rfl, rfl, rfl⟩, rfl, rfl, ⟨rfl, rfl, rfl, rfl, rfl⟩, rfl, ⟨rfl, rfl, rfl⟩,
    rfl, rfl⟩

/-! ## Editable cells -/

/-- C19: `IsEditable(true)` holds exactly when the cell has the type
`MC_TYPE_INPUT` and a live previous cell of the type `MC_TYPE_MAIN_PROMPT`;
`IsEditable(true)` implies `IsEditable(false)`; `IsEditable(false)` is
`IsEditable(true)` or `IsComment()`, and the two are never both true. -/
theorem IsEditable_input_and_comment (h : Heap) (c : Cell) :
    (c.IsEditable h true = true ↔
      c.m_type = CellType.MC_TYPE_INPUT ∧
      ∃ p, h.deref c.m_previous = some p ∧ p.m_type = CellType.MC_TYPE_MAIN_PROMPT) ∧
    (c.IsEditable h true = true → c.IsEditable h false = true) ∧
    c.IsEditable h false = (c.IsEditable h true || c.IsComment) ∧
    ¬ (c.IsEditable h true = true ∧ c.IsComment = true) := by
  have hiff : c.IsEditable h true = true ↔
      c.m_type = CellType.MC_TYPE_INPUT ∧
      ∃ p, h.deref c.m_previous = some p ∧ p.m_type = CellType.MC_TYPE_MAIN_PROMPT := by
    unfold Cell.IsEditable
    cases hd : h.deref c.m_previous with
    | none => simp
    | some p => simp
  have hor : c.IsEditable h false = (c.IsEditable h true || c.IsComment) := by
    simp [Cell.IsEditable]
  refine ⟨hiff, ?_, hor, ?_⟩
  · intro ht
    rw [hor, ht]
    rfl
  · rintro ⟨ht, hcom⟩
    have hty := (hiff.mp ht).1
    unfold Cell.IsComment at hcom
    rw [hty] at hcom
    exact absurd hcom (by decide)

/-- The input cell behind the main prompt of `examplePromptHeap` is editable with
and without the `input` argument. -/
theorem IsEditable_input_and_comment_witness :
    exampleInputCell.IsEditable examplePromptHeap false = true :=
  (IsEditable_input_and_comment examplePromptHeap exampleInputCell).2.1 (by decide)

end WxMaxima
